import Mathlib

/-!
# pydermonkey `object.c`: the Object Handle lifecycle

A shallow embedding of `src/object.c`: the constructor `PYM_newJSObject` and the
destructor `PYM_JSObjectDealloc` of the Python wrapper of a SpiderMonkey object,
over an explicit heap.

* Pointers are `Option Addr`; `none` is `NULL`. An `Addr` is the number of a machine
  word of the 64-bit address space: a record starts at a word boundary, at eight
  times that number.
* The heap is two typed maps, one for `PYM_JSRuntimeObject` records (Runtime
  Handles) and one for `PYM_JSObject` records (Object Handles).
* A function returns `Except Fault _`; `Except.error` stands for the C program
  dereferencing a null, unallocated or already finalized pointer.
* Every primitive step appends one `Effect` to the log of the state, so that the
  order of the steps of a call can be read off.
* `ob_refcnt` is a `Py_ssize_t`, a signed 64-bit integer (a 64-bit build of the
  host): `Py_INCREF` and `Py_DECREF` add and subtract one modulo `2 ^ 64`.
-/

namespace Pydermonkey

/-- A machine address: the number of one of the `2 ^ 61` words, of eight bytes, of the
64-bit address space. -/
abbrev Addr := Fin 2305843009213693952

/-- The largest `Py_ssize_t`, `2 ^ 63 - 1`. -/
def PY_SSIZE_T_MAX : Int := 9223372036854775807

/-- The smallest `Py_ssize_t`, `- 2 ^ 63`. -/
def PY_SSIZE_T_MIN : Int := -9223372036854775808

/-- The signed 64-bit integer congruent to `x` modulo `2 ^ 64`. -/
def wrap (x : Int) : Int :=
  (x + 9223372036854775808) % 18446744073709551616 - 9223372036854775808

/-- The type `Py_ssize_t` of CPython: the signed 64-bit integers. -/
abbrev Py_ssize_t := { x : Int // PY_SSIZE_T_MIN ≤ x ∧ x ≤ PY_SSIZE_T_MAX }

/-- The `Py_ssize_t` that a computation with the exact result `x` leaves in a 64-bit
word. -/
def Py_ssize_t.ofInt (x : Int) : Py_ssize_t :=
  ⟨wrap x, by
    simp only [wrap, PY_SSIZE_T_MIN, PY_SSIZE_T_MAX]
    omega⟩

instance (n : Nat) : OfNat Py_ssize_t n := ⟨Py_ssize_t.ofInt n⟩

/-- The label that `PYM_newJSObject` passes to `JS_AddNamedRootRT` (object.c:83). -/
def rootName : String := "Pymonkey-Generated Object"

/-- The ways in which a step can leave defined behaviour. -/
inductive Fault where
  | nullDeref
  | badPointer
  | useAfterFree
deriving DecidableEq

/-- The primitive steps of the two functions, as they are logged. -/
inductive Effect where
  | alloc (self : Addr)
  | setRuntime (self : Addr) (r : Option Addr)
  | incref (r : Addr)
  | setObj (self : Addr) (v : Option Addr)
  | addRoot (r : Addr) (slot : Addr) (name : String)
  | removeRoot (r : Addr) (slot : Addr)
  | decref (r : Addr)
  | finalize (r : Addr)
deriving DecidableEq

/-- The engine instance (`JSRuntime`), of which only the root table is observed: a
finite map from the address of a rooted slot to the name of the root. -/
structure JSRuntime where
  gcRoots : List (Addr × String)
deriving DecidableEq

/-- The Runtime Handle (`PYM_JSRuntimeObject` of runtime.h): a Python object header
and the engine instance `rt` it owns. `finalized` counts the runs of its
destructor. -/
structure PYM_JSRuntimeObject where
  ob_refcnt : Py_ssize_t
  rt : JSRuntime
  finalized : Nat
deriving DecidableEq

/-- The Object Handle (`PYM_JSObject` of object.h): a Python object header, the
pointer `runtime` to its Runtime Handle and the slot `obj`. -/
structure PYM_JSObject where
  ob_refcnt : Py_ssize_t
  runtime : Option Addr
  obj : Option Addr
deriving DecidableEq

/-- The part of `PYM_JSContextObject` that object.c reads: its `runtime` pointer. -/
structure PYM_JSContextObject where
  runtime : Option Addr
deriving DecidableEq

/-- The program state: the two typed heaps and the log of the steps taken. -/
structure State where
  runtimes : Addr → Option PYM_JSRuntimeObject
  objects : Addr → Option PYM_JSObject
  log : List Effect

/-- A heap with the record at `a` replaced. -/
def update {β : Type} (f : Addr → Option β) (a : Addr) (v : β) : Addr → Option β :=
  fun x => if x = a then some v else f x

/-! ## The engine and the host primitives that object.c calls -/

/-- Modelled from the spec: the engine's `add_root(slot_ref, debug_label)`
(SpiderMonkey's `JS_AddNamedRootRT`, not part of this repository), infallible by
contract. The root table is keyed by the address of the slot, so an entry under the
same address is replaced. -/
def JS_AddNamedRootRT (rt : JSRuntime) (rp : Addr) (name : String) : JSRuntime :=
  { gcRoots := (rp, name) :: rt.gcRoots.filter (fun e => e.1 != rp) }

/-- Modelled from the spec: the engine's `remove_root(slot_ref)` (SpiderMonkey's
`JS_RemoveRootRT`, not part of this repository), idempotent and infallible:
removing an absent root is a no-op. -/
def JS_RemoveRootRT (rt : JSRuntime) (rp : Addr) : JSRuntime :=
  { gcRoots := rt.gcRoots.filter (fun e => e.1 != rp) }

/-- The name under which the slot at `rp` is rooted, if it is. -/
def rootOf (rt : JSRuntime) (rp : Addr) : Option String :=
  rt.gcRoots.lookup rp

/-- Dereference of a `PYM_JSRuntimeObject *`. -/
def derefRuntime (s : State) (p : Option Addr) : Except Fault (Addr × PYM_JSRuntimeObject) :=
  match p with
  | none => .error .nullDeref
  | some r =>
    match s.runtimes r with
    | none => .error .badPointer
    | some R => if R.finalized = 0 then .ok (r, R) else .error .useAfterFree

/-- Dereference of a `PYM_JSObject *`. -/
def derefObject (s : State) (self : Addr) : Except Fault PYM_JSObject :=
  match s.objects self with
  | none => .error .badPointer
  | some o => .ok o

/-- The host allocator `PyObject_New(PYM_JSObject, &PYM_JSObjectType)` (CPython, not
part of this repository). `alloc` is what the allocator answers: `none` when it is
out of memory, `some a` for the address of the new record. The header of the new
record has reference count 1; its two fields are not initialised by the allocator
and are written by the caller before they are read. -/
def PyObject_New (s : State) (alloc : Option Addr) : Option Addr × State :=
  match alloc with
  | none => (none, s)
  | some a =>
    (some a,
      { s with
        objects := update s.objects a { ob_refcnt := 1, runtime := none, obj := none }
        log := s.log ++ [Effect.alloc a] })

/-- Modelled from the spec: the destructor of the Runtime Handle
(`PYM_JSRuntimeDealloc` of runtime.c, which is not among the sources), run when the
reference count reaches zero: "when it reaches zero, the engine instance is
finalized/torn down". The run is counted and logged; the record is kept so that it
can still be inspected. -/
def PYM_JSRuntimeDealloc (s : State) (r : Addr) (R : PYM_JSRuntimeObject) : State :=
  { s with
    runtimes := update s.runtimes r { R with finalized := R.finalized + 1 }
    log := s.log ++ [Effect.finalize r] }

/-- The macro `Py_INCREF(op)` of CPython on a Runtime Handle: `op->ob_refcnt++`, on a
signed 64-bit word. -/
def Py_INCREF (s : State) (op : Option Addr) : Except Fault State :=
  match derefRuntime s op with
  | .error e => .error e
  | .ok (r, R) =>
    .ok { s with
          runtimes := update s.runtimes r
            { R with ob_refcnt := Py_ssize_t.ofInt (R.ob_refcnt.val + 1) }
          log := s.log ++ [Effect.incref r] }

/-- The macro `Py_DECREF(op)` of CPython on a Runtime Handle:
`if (--op->ob_refcnt != 0) ; else _Py_Dealloc(op)`, on a signed 64-bit word. -/
def Py_DECREF (s : State) (op : Option Addr) : Except Fault State :=
  match derefRuntime s op with
  | .error e => .error e
  | .ok (r, R) =>
    let R1 : PYM_JSRuntimeObject :=
      { R with ob_refcnt := Py_ssize_t.ofInt (R.ob_refcnt.val - 1) }
    let s1 : State :=
      { s with runtimes := update s.runtimes r R1, log := s.log ++ [Effect.decref r] }
    if R1.ob_refcnt.val ≠ 0 then .ok s1 else .ok (PYM_JSRuntimeDealloc s1 r R1)

/-- The store `self->runtime = v`. -/
def storeRuntime (s : State) (self : Addr) (v : Option Addr) : Except Fault State :=
  match derefObject s self with
  | .error e => .error e
  | .ok o =>
    .ok { s with
          objects := update s.objects self { o with runtime := v }
          log := s.log ++ [Effect.setRuntime self v] }

/-- The store `self->obj = v`. -/
def storeObj (s : State) (self : Addr) (v : Option Addr) : Except Fault State :=
  match derefObject s self with
  | .error e => .error e
  | .ok o =>
    .ok { s with
          objects := update s.objects self { o with obj := v }
          log := s.log ++ [Effect.setObj self v] }

/-- The call `JS_AddNamedRootRT(p->rt, &self->obj, name)` through the Runtime Handle
pointer `p`. The slot `&self->obj` is identified by the address of its handle. -/
def addRootVia (s : State) (p : Option Addr) (self : Addr) (name : String) :
    Except Fault State :=
  match derefRuntime s p with
  | .error e => .error e
  | .ok (r, R) =>
    .ok { s with
          runtimes := update s.runtimes r { R with rt := JS_AddNamedRootRT R.rt self name }
          log := s.log ++ [Effect.addRoot r self name] }

/-- The call `JS_RemoveRootRT(p->rt, &self->obj)` through the Runtime Handle
pointer `p`. -/
def removeRootVia (s : State) (p : Option Addr) (self : Addr) : Except Fault State :=
  match derefRuntime s p with
  | .error e => .error e
  | .ok (r, R) =>
    .ok { s with
          runtimes := update s.runtimes r { R with rt := JS_RemoveRootRT R.rt self }
          log := s.log ++ [Effect.removeRoot r self] }

/-! ## object.c -/

/-- The destructor `PYM_JSObjectDealloc(self)` (object.c:11-24). -/
def PYM_JSObjectDealloc (s : State) (self : Addr) : Except Fault State := do
  let o ← derefObject s self
  let s1 ←
    match o.obj with
    | some _ => do
      -- JS_RemoveRootRT(self->runtime->rt, &self->obj);
      let t ← removeRootVia s o.runtime self
      -- self->obj = NULL;
      storeObj t self none
    | none => pure s
  -- Py_DECREF(self->runtime);
  let o1 ← derefObject s1 self
  let s2 ← Py_DECREF s1 o1.runtime
  -- self->runtime = NULL;
  storeRuntime s2 self none

/-- The constructor `PYM_newJSObject(context, obj)` (object.c:70-86). The result is
the returned pointer (`none` for `NULL`) and the state after the call. -/
def PYM_newJSObject (s : State) (alloc : Option Addr) (context : PYM_JSContextObject)
    (obj : Option Addr) : Except Fault (Option Addr × State) :=
  match PyObject_New s alloc with
  -- if (object == NULL) return NULL;
  | (none, s0) => pure (none, s0)
  | (some object, s0) => do
    -- object->runtime = context->runtime;
    let s1 ← storeRuntime s0 object context.runtime
    -- Py_INCREF(object->runtime);
    let o1 ← derefObject s1 object
    let s2 ← Py_INCREF s1 o1.runtime
    -- object->obj = obj;
    let s3 ← storeObj s2 object obj
    -- JS_AddNamedRootRT(object->runtime->rt, &object->obj, "Pymonkey-Generated Object");
    let o3 ← derefObject s3 object
    let s4 ← addRootVia s3 o3.runtime object rootName
    pure (some object, s4)

/-! ## Observations and sample states -/

/-- In the list of steps `l`, the step `e1` occurs, and `e2` occurs after it: the
first occurrence of `e1` is before the first occurrence of `e2`. -/
def occursBefore (e1 e2 : Effect) (l : List Effect) : Prop :=
  l.indexOf e1 < l.indexOf e2 ∧ l.indexOf e2 < l.length

instance (e1 e2 : Effect) (l : List Effect) : Decidable (occursBefore e1 e2 l) := by
  unfold occursBefore
  infer_instance

/-- A state with no Object Handle and one Runtime Handle, at address 1, that has
reference count `c`, an empty root table and has not been finalized. -/
def oneRuntime (c : Py_ssize_t) : State :=
  { runtimes := update (fun _ => none) 1
      { ob_refcnt := c, rt := { gcRoots := [] }, finalized := 0 }
    objects := fun _ => none
    log := [] }

/-- A context over the Runtime Handle at address 1. -/
def ctx1 : PYM_JSContextObject := { runtime := some 1 }

/-- A state with the Runtime Handle at address 1, of reference count 1, and one Object
Handle over it at address 10, whose slot holds the value at 100 and is rooted. -/
def oneHandle : State :=
  { runtimes := update (fun _ => none) 1
      { ob_refcnt := 1, rt := { gcRoots := [(10, rootName)] }, finalized := 0 }
    objects := update (fun _ => none) 10
      { ob_refcnt := 1, runtime := some 1, obj := some 100 }
    log := [] }

/-! ## Runs of the two functions -/

/-- The number of handles of `live` that were constructed over the Runtime Handle at
`r`; `live` lists each handle with the Runtime Handle it was constructed over. -/
def liveOver (r : Addr) (live : List (Addr × Addr)) : Nat :=
  live.countP (fun p => p.2 == r)

/-- The states reached from a state with no Object Handle, in which no reference
count is negative, by successful calls of `PYM_newJSObject` (the allocator answers an
address that is not allocated) and calls of `PYM_JSObjectDealloc` on handles that are
live, each paired with the list of the live handles: those constructed and not yet
torn down. -/
inductive Reachable : State → List (Addr × Addr) → Prop where
  | init (s : State) (hobj : ∀ a, s.objects a = none)
      (hcnt : ∀ r R, s.runtimes r = some R → 0 ≤ R.ob_refcnt.val) : Reachable s []
  | construct (s s1 : State) (live : List (Addr × Addr)) (a : Addr)
      (context : PYM_JSContextObject) (v : Option Addr) (r : Addr)
      (hreach : Reachable s live) (hfresh : s.objects a = none)
      (hr : context.runtime = some r)
      (hcall : PYM_newJSObject s (some a) context v = .ok (some a, s1)) :
      Reachable s1 ((a, r) :: live)
  | teardown (s s1 : State) (live : List (Addr × Addr)) (a r : Addr)
      (hreach : Reachable s live) (hlive : (a, r) ∈ live)
      (hcall : PYM_JSObjectDealloc s a = .ok s1) :
      Reachable s1 (live.erase (a, r))

/-- The invariant of the reachable states: the live handles are pairwise distinct;
each is allocated, points to the Runtime Handle it was constructed over, which has
not been finalized, and is rooted there if its slot is not empty; and the reference
count of every Runtime Handle is, modulo `2 ^ 64`, a count that is not negative plus
the number of live handles over it. -/
def Inv (s : State) (live : List (Addr × Addr)) : Prop :=
  (live.map Prod.fst).Nodup ∧
  (∀ a r, (a, r) ∈ live →
    ∃ o R, s.objects a = some o ∧ o.runtime = some r ∧ s.runtimes r = some R ∧
      R.finalized = 0 ∧ (o.obj ≠ none → rootOf R.rt a = some rootName)) ∧
  (∀ r R, s.runtimes r = some R →
    ∃ c : Int, 0 ≤ c ∧ c ≤ PY_SSIZE_T_MAX ∧ R.ob_refcnt.val = wrap (c + liveOver r live))

/-- Successive constructions over one context, one per entry of the list: the address
that the allocator answers and the value reference to expose. -/
def constructAll (s : State) (context : PYM_JSContextObject) :
    List (Addr × Option Addr) → Except Fault State
  | [] => .ok s
  | (a, v) :: rest =>
    match PYM_newJSObject s (some a) context v with
    | .ok (_, s1) => constructAll s1 context rest
    | .error e => .error e

/-- Successive teardowns of the handles of the list, in the order of the list. -/
def teardownAll (s : State) : List Addr → Except Fault State
  | [] => .ok s
  | a :: rest =>
    match PYM_JSObjectDealloc s a with
    | .ok s1 => teardownAll s1 rest
    | .error e => .error e

/-! ## Arithmetic of the reference count -/

theorem wrap_of_range (x : Int) (h1 : PY_SSIZE_T_MIN ≤ x) (h2 : x ≤ PY_SSIZE_T_MAX) :
    wrap x = x := by
  simp only [wrap, PY_SSIZE_T_MIN, PY_SSIZE_T_MAX] at *
  omega

theorem wrap_wrap_add (x y : Int) : wrap (wrap x + y) = wrap (x + y) := by
  simp only [wrap]
  omega

/-- An increment below the largest value is exact. -/
theorem ofInt_succ_val (c : Py_ssize_t) (h : c.val < PY_SSIZE_T_MAX) :
    (Py_ssize_t.ofInt (c.val + 1)).val = c.val + 1 := by
  have h1 := c.property.1
  have h2 := c.property.2
  simp only [Py_ssize_t.ofInt, wrap, PY_SSIZE_T_MIN, PY_SSIZE_T_MAX] at *
  omega

/-- A decrement above the smallest value is exact. -/
theorem ofInt_pred_val (c : Py_ssize_t) (h : PY_SSIZE_T_MIN < c.val) :
    (Py_ssize_t.ofInt (c.val - 1)).val = c.val - 1 := by
  have h1 := c.property.1
  have h2 := c.property.2
  simp only [Py_ssize_t.ofInt, wrap, PY_SSIZE_T_MIN, PY_SSIZE_T_MAX] at *
  omega

/-- The decremented word is zero exactly when the count was one. -/
theorem ofInt_pred_val_eq_zero (c : Py_ssize_t) :
    (Py_ssize_t.ofInt (c.val - 1)).val = 0 ↔ c.val - 1 = 0 := by
  have h1 := c.property.1
  have h2 := c.property.2
  simp only [Py_ssize_t.ofInt, wrap, PY_SSIZE_T_MIN, PY_SSIZE_T_MAX] at *
  omega

/-- An increment followed by a decrement gives the word back, also at the ends of the
range. -/
theorem ofInt_pred_succ (c : Py_ssize_t) :
    Py_ssize_t.ofInt ((Py_ssize_t.ofInt (c.val + 1)).val - 1) = c := by
  have h1 := c.property.1
  have h2 := c.property.2
  apply Subtype.ext
  simp only [Py_ssize_t.ofInt, wrap, PY_SSIZE_T_MIN, PY_SSIZE_T_MAX] at *
  omega

theorem ofInt_zero_val : (Py_ssize_t.ofInt 0).val = 0 := by
  decide

/-! ## Closed forms of the two functions -/

theorem update_same {β : Type} (f : Addr → Option β) (a : Addr) (v : β) :
    update f a v a = some v := by
  simp [update]

theorem update_ne {β : Type} (f : Addr → Option β) (a x : Addr) (v : β) (h : x ≠ a) :
    update f a v x = f x := by
  simp [update, h]

theorem update_update {β : Type} (f : Addr → Option β) (a : Addr) (v w : β) :
    update (update f a v) a w = update f a w := by
  funext x
  by_cases h : x = a <;> simp [update, h]

/-- On a context whose `runtime` points to a Runtime Handle that has not been
finalized, a call whose allocation succeeds returns the new handle, and the state
after it is the one written out here. -/
theorem newJSObject_eq (s : State) (a : Addr) (context : PYM_JSContextObject)
    (v : Option Addr) (r : Addr) (R : PYM_JSRuntimeObject)
    (hr : context.runtime = some r) (hR : s.runtimes r = some R) (hf : R.finalized = 0) :
    PYM_newJSObject s (some a) context v =
      .ok (some a,
        { runtimes := update s.runtimes r
            { ob_refcnt := Py_ssize_t.ofInt (R.ob_refcnt.val + 1)
              rt := JS_AddNamedRootRT R.rt a rootName
              finalized := R.finalized }
          objects := update s.objects a { ob_refcnt := 1, runtime := some r, obj := v }
          log := s.log ++ [Effect.alloc a, Effect.setRuntime a (some r), Effect.incref r,
            Effect.setObj a v, Effect.addRoot r a rootName] }) := by
  simp [PYM_newJSObject, PyObject_New, storeRuntime, storeObj, derefObject, Py_INCREF,
    addRootVia, derefRuntime, update_same, update_update, hr, hR, hf, bind, Except.bind,
    pure, Except.pure]

/-- On a handle whose `runtime` points to a Runtime Handle that has not been
finalized, teardown completes, and the state after it is the one written out here. -/
theorem dealloc_eq (s : State) (self : Addr) (o : PYM_JSObject) (r : Addr)
    (R : PYM_JSRuntimeObject) (ho : s.objects self = some o) (hr : o.runtime = some r)
    (hR : s.runtimes r = some R) (hf : R.finalized = 0) :
    PYM_JSObjectDealloc s self =
      .ok { runtimes := update s.runtimes r
              { ob_refcnt := Py_ssize_t.ofInt (R.ob_refcnt.val - 1)
                rt := if o.obj = none then R.rt else JS_RemoveRootRT R.rt self
                finalized := if R.ob_refcnt.val - 1 = 0 then 1 else 0 }
            objects := update s.objects self
              { ob_refcnt := o.ob_refcnt, runtime := none, obj := none }
            log := s.log
              ++ (if o.obj = none then [] else
                    [Effect.removeRoot r self, Effect.setObj self none])
              ++ [Effect.decref r]
              ++ (if R.ob_refcnt.val - 1 = 0 then [Effect.finalize r] else [])
              ++ [Effect.setRuntime self none] } := by
  obtain ⟨c, ρ, v⟩ := o
  obtain ⟨n, t, k⟩ := R
  simp only at hr hf
  subst hr hf
  cases v <;> by_cases hz : n.val - 1 = 0 <;>
    simp [PYM_JSObjectDealloc, storeRuntime, storeObj, derefObject, Py_DECREF,
      removeRootVia, derefRuntime, PYM_JSRuntimeDealloc, update_same, update_update, ho, hR,
      hz, ofInt_pred_val_eq_zero, ofInt_zero_val, bind, Except.bind, pure, Except.pure]

/-! ## The root table -/

theorem lookup_filter_same (l : List (Addr × String)) (a : Addr) :
    (l.filter (fun e => e.1 != a)).lookup a = none := by
  induction l with
  | nil => rfl
  | cons e l ih =>
    obtain ⟨k, n⟩ := e
    by_cases h : k = a
    · simp [List.filter_cons, h, ih]
    · have h2 : (a == k) = false := by simpa using fun h3 => h h3.symm
      simp [List.filter_cons, h, List.lookup_cons, h2, ih]

theorem lookup_filter_ne (l : List (Addr × String)) (a k : Addr) (hk : k ≠ a) :
    (l.filter (fun e => e.1 != a)).lookup k = l.lookup k := by
  induction l with
  | nil => rfl
  | cons e l ih =>
    obtain ⟨j, n⟩ := e
    by_cases h : j = a
    · subst h
      have h2 : (k == j) = false := by simpa using hk
      simp [List.filter_cons, List.lookup_cons, h2, ih]
    · by_cases h3 : k = j
      · simp [List.filter_cons, h, List.lookup_cons, h3]
      · have h2 : (k == j) = false := by simpa using h3
        simp [List.filter_cons, h, List.lookup_cons, h2, ih]

theorem rootOf_add_same (rt : JSRuntime) (a : Addr) (n : String) :
    rootOf (JS_AddNamedRootRT rt a n) a = some n := by
  simp [rootOf, JS_AddNamedRootRT, List.lookup_cons]

theorem rootOf_add_ne (rt : JSRuntime) (a k : Addr) (n : String) (hk : k ≠ a) :
    rootOf (JS_AddNamedRootRT rt a n) k = rootOf rt k := by
  have h2 : (k == a) = false := by simpa using hk
  simp [rootOf, JS_AddNamedRootRT, List.lookup_cons, h2, lookup_filter_ne _ _ _ hk]

theorem rootOf_remove_same (rt : JSRuntime) (a : Addr) :
    rootOf (JS_RemoveRootRT rt a) a = none := by
  simp [rootOf, JS_RemoveRootRT, lookup_filter_same]

theorem rootOf_remove_ne (rt : JSRuntime) (a k : Addr) (hk : k ≠ a) :
    rootOf (JS_RemoveRootRT rt a) k = rootOf rt k := by
  simp [rootOf, JS_RemoveRootRT, lookup_filter_ne _ _ _ hk]

theorem mem_add_of_mem (rt : JSRuntime) (a : Addr) (n : String) (e : Addr × String)
    (he : e ∈ rt.gcRoots) (hk : e.1 ≠ a) : e ∈ (JS_AddNamedRootRT rt a n).gcRoots := by
  simp [JS_AddNamedRootRT, List.mem_filter, he, hk]

/-! ## C1: what a successful construction establishes -/

/-- C1. When the allocation succeeds (the allocator answers `a`) and the context's
`runtime` points to a Runtime Handle `R` at `r` that has not been finalized and
whose reference count is below `PY_SSIZE_T_MAX`, `PYM_newJSObject` returns `a`; the handle at `a` has `runtime` equal to the
context's `runtime` and its slot holds `v`; the reference count of the Runtime
Handle is one higher than before; the slot of `a` is rooted in its root table under
"Pymonkey-Generated Object"; every entry of the root table for another slot is still
there, and every other slot is rooted as it was. -/
theorem newJSObject_establishes (s : State) (a : Addr) (context : PYM_JSContextObject)
    (v : Option Addr) (r : Addr) (R : PYM_JSRuntimeObject)
    (hr : context.runtime = some r) (hR : s.runtimes r = some R) (hf : R.finalized = 0)
    (hmax : R.ob_refcnt.val < PY_SSIZE_T_MAX) :
    ∃ s1 R1,
      PYM_newJSObject s (some a) context v = .ok (some a, s1) ∧
      s1.objects a = some { ob_refcnt := 1, runtime := context.runtime, obj := v } ∧
      s1.runtimes r = some R1 ∧
      R1.ob_refcnt.val = R.ob_refcnt.val + 1 ∧
      R1.finalized = 0 ∧
      rootOf R1.rt a = some "Pymonkey-Generated Object" ∧
      (∀ e ∈ R.rt.gcRoots, e.1 ≠ a → e ∈ R1.rt.gcRoots) ∧
      (∀ k, k ≠ a → rootOf R1.rt k = rootOf R.rt k) := by
  refine ⟨_, _, newJSObject_eq s a context v r R hr hR hf, ?_, update_same _ _ _,
    ofInt_succ_val _ hmax, hf, ?_, ?_, ?_⟩
  · simp [update_same, hr]
  · exact rootOf_add_same _ _ _
  · intro e he hk
    exact mem_add_of_mem _ _ _ _ he hk
  · intro k hk
    exact rootOf_add_ne _ _ _ _ hk

theorem newJSObject_establishes_witness :
    ctx1.runtime = some 1 ∧
    oneHandle.runtimes 1 =
      some { ob_refcnt := 1, rt := { gcRoots := [(10, rootName)] }, finalized := 0 } ∧
    (1 : Py_ssize_t).val < PY_SSIZE_T_MAX ∧
    ∃ s1 R1,
      PYM_newJSObject oneHandle (some 20) ctx1 (some 200) = .ok (some 20, s1) ∧
      s1.objects 20 = some { ob_refcnt := 1, runtime := ctx1.runtime, obj := some 200 } ∧
      s1.runtimes 1 = some R1 ∧
      R1.ob_refcnt.val = (1 : Py_ssize_t).val + 1 ∧
      R1.finalized = 0 ∧
      rootOf R1.rt 20 = some "Pymonkey-Generated Object" ∧
      (∀ e ∈ [((10 : Addr), rootName)], e.1 ≠ 20 → e ∈ R1.rt.gcRoots) ∧
      (∀ k, k ≠ 20 → rootOf R1.rt k = rootOf { gcRoots := [(10, rootName)] } k) :=
  ⟨rfl, rfl, by decide,
    newJSObject_establishes oneHandle 20 ctx1 (some 200) 1
      { ob_refcnt := 1, rt := { gcRoots := [(10, rootName)] }, finalized := 0 } rfl rfl rfl
      (by decide)⟩

/-! ## C7: a failed allocation -/

/-- C7. When the allocation of the handle record fails, `PYM_newJSObject` returns
`NULL` and the state after the call is the state before it: no reference count has
changed, no root table has changed, no handle has been written. -/
theorem newJSObject_alloc_failure (s : State) (context : PYM_JSContextObject)
    (v : Option Addr) :
    PYM_newJSObject s none context v = .ok (none, s) := by
  rfl

/-! ## C2: what teardown does -/

/-- C2. On a handle `o` at `self` whose `runtime` points to a Runtime Handle `R` at
`r` that has not been finalized and whose reference count is above
`PY_SSIZE_T_MIN`, `PYM_JSObjectDealloc` completes; the reference count
of `R` is lower by exactly one, whether or not the slot was empty; when the slot was
non-empty the slot is no longer rooted, the removal is among the steps of the call,
and the other slots are rooted as before; when the slot was empty, no removal is
among the steps and the root table is the one before the call, so a registration
that was there goes away if and only if the slot was non-empty; after the call the
slot and the `runtime` field of the handle are both `NULL`. -/
theorem dealloc_effect (s : State) (self : Addr) (o : PYM_JSObject) (r : Addr)
    (R : PYM_JSRuntimeObject) (ho : s.objects self = some o) (hr : o.runtime = some r)
    (hR : s.runtimes r = some R) (hf : R.finalized = 0)
    (hmin : PY_SSIZE_T_MIN < R.ob_refcnt.val) :
    ∃ s1 R1 evs,
      PYM_JSObjectDealloc s self = .ok s1 ∧
      s1.runtimes r = some R1 ∧
      R1.ob_refcnt.val = R.ob_refcnt.val - 1 ∧
      s1.log = s.log ++ evs ∧
      (Effect.removeRoot r self ∈ evs ↔ o.obj ≠ none) ∧
      (o.obj ≠ none → rootOf R1.rt self = none ∧
        ∀ k, k ≠ self → rootOf R1.rt k = rootOf R.rt k) ∧
      (o.obj = none → R1.rt = R.rt) ∧
      (rootOf R.rt self ≠ none → (rootOf R1.rt self = none ↔ o.obj ≠ none)) ∧
      s1.objects self = some { ob_refcnt := o.ob_refcnt, runtime := none, obj := none } := by
  refine ⟨_, _,
    (if o.obj = none then [] else [Effect.removeRoot r self, Effect.setObj self none])
      ++ [Effect.decref r]
      ++ (if R.ob_refcnt.val - 1 = 0 then [Effect.finalize r] else [])
      ++ [Effect.setRuntime self none],
    dealloc_eq s self o r R ho hr hR hf, update_same _ _ _, ofInt_pred_val _ hmin, ?_, ?_, ?_,
    ?_, ?_, update_same _ _ _⟩
  · simp only [List.append_assoc]
  · by_cases hv : o.obj = none <;> by_cases hz : R.ob_refcnt.val - 1 = 0 <;> simp [hv, hz]
  · intro hv
    simp only [hv, if_false]
    exact ⟨rootOf_remove_same _ _, fun k hk => rootOf_remove_ne _ _ _ hk⟩
  · intro hv
    simp [hv]
  · intro hroot
    by_cases hv : o.obj = none
    · simp [hv, hroot]
    · simp [hv, rootOf_remove_same]

theorem dealloc_effect_witness :
    oneHandle.objects 10 = some { ob_refcnt := 1, runtime := some 1, obj := some 100 } ∧
    oneHandle.runtimes 1 =
      some { ob_refcnt := 1, rt := { gcRoots := [(10, rootName)] }, finalized := 0 } ∧
    PY_SSIZE_T_MIN < (1 : Py_ssize_t).val ∧
    ∃ s1 R1 evs,
      PYM_JSObjectDealloc oneHandle 10 = .ok s1 ∧
      s1.runtimes 1 = some R1 ∧
      R1.ob_refcnt.val = (1 : Py_ssize_t).val - 1 ∧
      s1.log = oneHandle.log ++ evs ∧
      (Effect.removeRoot 1 10 ∈ evs ↔ (some 100 : Option Addr) ≠ none) ∧
      ((some 100 : Option Addr) ≠ none → rootOf R1.rt 10 = none ∧
        ∀ k, k ≠ 10 → rootOf R1.rt k = rootOf { gcRoots := [(10, rootName)] } k) ∧
      ((some 100 : Option Addr) = none → R1.rt = { gcRoots := [(10, rootName)] }) ∧
      (rootOf { gcRoots := [(10, rootName)] } 10 ≠ none →
        (rootOf R1.rt 10 = none ↔ (some 100 : Option Addr) ≠ none)) ∧
      s1.objects 10 = some { ob_refcnt := 1, runtime := none, obj := none } :=
  ⟨rfl, rfl, by decide,
    dealloc_effect oneHandle 10 { ob_refcnt := 1, runtime := some 1, obj := some 100 } 1
      { ob_refcnt := 1, rt := { gcRoots := [(10, rootName)] }, finalized := 0 }
      rfl rfl rfl rfl (by decide)⟩

/-! ## C3: construction followed by teardown -/

/-- C3, as the code has it. After a successful `PYM_newJSObject` followed directly
by `PYM_JSObjectDealloc` on the returned handle, both calls complete, the reference
count of the Runtime Handle is the one before the construction, and, when the value
reference passed to the constructor is not `NULL`, the slot of the handle is no
longer in the root table. -/
theorem construct_then_teardown (s : State) (a : Addr) (context : PYM_JSContextObject)
    (v : Option Addr) (r : Addr) (R : PYM_JSRuntimeObject)
    (hr : context.runtime = some r) (hR : s.runtimes r = some R) (hf : R.finalized = 0) :
    ∃ s1 s2 R2,
      PYM_newJSObject s (some a) context v = .ok (some a, s1) ∧
      PYM_JSObjectDealloc s1 a = .ok s2 ∧
      s2.runtimes r = some R2 ∧
      R2.ob_refcnt = R.ob_refcnt ∧
      (v ≠ none → rootOf R2.rt a = none) := by
  refine ⟨_, _, _, newJSObject_eq s a context v r R hr hR hf,
    dealloc_eq _ a _ r _ (update_same _ _ _) rfl (update_same _ _ _) hf, update_same _ _ _,
    ?_, ?_⟩
  · exact ofInt_pred_succ R.ob_refcnt
  · intro hv
    simp [hv, rootOf_remove_same]

theorem construct_then_teardown_witness :
    ctx1.runtime = some 1 ∧
    ∃ s1 s2 R2,
      PYM_newJSObject (oneRuntime 1) (some 10) ctx1 (some 100) = .ok (some 10, s1) ∧
      PYM_JSObjectDealloc s1 10 = .ok s2 ∧
      s2.runtimes 1 = some R2 ∧
      R2.ob_refcnt = 1 ∧
      ((some 100 : Option Addr) ≠ none → rootOf R2.rt 10 = none) :=
  ⟨rfl,
    construct_then_teardown (oneRuntime 1) 10 ctx1 (some 100) 1
      { ob_refcnt := 1, rt := { gcRoots := [] }, finalized := 0 } rfl rfl rfl⟩

/-- C3 fails for the empty value reference: constructing a handle over `NULL` on the
Runtime Handle at 1 and tearing it down leaves the slot of the handle rooted, since
the constructor roots the slot whatever it holds and the destructor removes the root
only when the slot is not `NULL`. -/
theorem null_value_root_survives_teardown :
    ∃ s1 s2 R2,
      PYM_newJSObject (oneRuntime 1) (some 10) ctx1 none = .ok (some 10, s1) ∧
      PYM_JSObjectDealloc s1 10 = .ok s2 ∧
      s2.runtimes 1 = some R2 ∧
      R2.ob_refcnt = 1 ∧
      rootOf R2.rt 10 = some "Pymonkey-Generated Object" ∧
      ¬ rootOf R2.rt 10 = none := by
  refine ⟨_, _, _,
    newJSObject_eq (oneRuntime 1) 10 ctx1 none 1
      { ob_refcnt := 1, rt := { gcRoots := [] }, finalized := 0 } rfl rfl rfl,
    dealloc_eq _ 10 { ob_refcnt := 1, runtime := some 1, obj := none } 1
      { ob_refcnt := Py_ssize_t.ofInt ((1 : Py_ssize_t).val + 1),
        rt := JS_AddNamedRootRT { gcRoots := [] } 10 rootName, finalized := 0 }
      rfl rfl rfl rfl,
    rfl, ?_, ?_, ?_⟩
  · exact ofInt_pred_succ 1
  · simp [rootOf_add_same, rootName]
  · simp [rootOf_add_same]

/-! ## C4: a second teardown -/

/-- C8. The steps of a successful `PYM_newJSObject` are, in this order: allocation,
the store of the `runtime` field, `Py_INCREF` of the Runtime Handle, the store of
the slot, the registration of the root; so the acquire precedes the population of
the slot, which precedes the rooting. The steps of a `PYM_JSObjectDealloc` on a
handle with a non-empty slot are: removal of the root, clearing of the slot,
`Py_DECREF` of the Runtime Handle (with its finalization when the count reaches
zero), clearing of the `runtime` field; so the removal of the root precedes both the
clearing of the slot and the release. -/
theorem effect_order (s : State) (a : Addr) (context : PYM_JSContextObject)
    (v : Option Addr) (r : Addr) (R : PYM_JSRuntimeObject)
    (hr : context.runtime = some r) (hR : s.runtimes r = some R) (hf : R.finalized = 0)
    (t : State) (self : Addr) (o : PYM_JSObject) (q : Addr) (Q : PYM_JSRuntimeObject)
    (ho : t.objects self = some o) (hq : o.runtime = some q)
    (hQ : t.runtimes q = some Q) (hg : Q.finalized = 0) (hv : o.obj ≠ none) :
    (∃ s1 evs,
      PYM_newJSObject s (some a) context v = .ok (some a, s1) ∧
      s1.log = s.log ++ evs ∧
      evs = [Effect.alloc a, Effect.setRuntime a (some r), Effect.incref r,
        Effect.setObj a v, Effect.addRoot r a rootName] ∧
      occursBefore (Effect.incref r) (Effect.setObj a v) evs ∧
      occursBefore (Effect.setObj a v) (Effect.addRoot r a rootName) evs) ∧
    (∃ t1 evs,
      PYM_JSObjectDealloc t self = .ok t1 ∧
      t1.log = t.log ++ evs ∧
      evs = [Effect.removeRoot q self, Effect.setObj self none, Effect.decref q]
        ++ (if Q.ob_refcnt.val - 1 = 0 then [Effect.finalize q] else [])
        ++ [Effect.setRuntime self none] ∧
      occursBefore (Effect.removeRoot q self) (Effect.setObj self none) evs ∧
      occursBefore (Effect.removeRoot q self) (Effect.decref q) evs) := by
  constructor
  · refine ⟨_, _, newJSObject_eq s a context v r R hr hR hf, rfl, rfl, ?_, ?_⟩ <;>
      simp [occursBefore, List.indexOf_cons]
  · refine ⟨_, _, dealloc_eq t self o q Q ho hq hQ hg, ?_, rfl, ?_, ?_⟩
    · simp [hv]
    · simp [occursBefore, List.indexOf_cons]
    · simp [occursBefore, List.indexOf_cons]

theorem effect_order_witness :
    ctx1.runtime = some 1 ∧
    oneHandle.objects 10 = some { ob_refcnt := 1, runtime := some 1, obj := some 100 } ∧
    (∃ s1 evs,
      PYM_newJSObject (oneRuntime 1) (some 10) ctx1 (some 100) = .ok (some 10, s1) ∧
      s1.log = (oneRuntime 1).log ++ evs ∧
      evs = [Effect.alloc 10, Effect.setRuntime 10 (some 1), Effect.incref 1,
        Effect.setObj 10 (some 100), Effect.addRoot 1 10 rootName] ∧
      occursBefore (Effect.incref 1) (Effect.setObj 10 (some 100)) evs ∧
      occursBefore (Effect.setObj 10 (some 100)) (Effect.addRoot 1 10 rootName) evs) ∧
    (∃ t1 evs,
      PYM_JSObjectDealloc oneHandle 10 = .ok t1 ∧
      t1.log = oneHandle.log ++ evs ∧
      evs = [Effect.removeRoot 1 10, Effect.setObj 10 none, Effect.decref 1]
        ++ (if (1 : Py_ssize_t).val - 1 = 0 then [Effect.finalize 1] else [])
        ++ [Effect.setRuntime 10 none] ∧
      occursBefore (Effect.removeRoot 1 10) (Effect.setObj 10 none) evs ∧
      occursBefore (Effect.removeRoot 1 10) (Effect.decref 1) evs) :=
  ⟨rfl, rfl,
    effect_order (oneRuntime 1) 10 ctx1 (some 100) 1
      { ob_refcnt := 1, rt := { gcRoots := [] }, finalized := 0 } rfl rfl rfl
      oneHandle 10 { ob_refcnt := 1, runtime := some 1, obj := some 100 } 1
      { ob_refcnt := 1, rt := { gcRoots := [(10, rootName)] }, finalized := 0 }
      rfl rfl rfl rfl (by simp)⟩

/-! ## The invariant of the reachable states -/

/-- A construction that completes was given a context whose `runtime` points to a
Runtime Handle that had not been finalized. -/
theorem newJSObject_ok_inv (s : State) (a : Addr) (context : PYM_JSContextObject)
    (v : Option Addr) (r : Addr) (res : Option Addr × State)
    (hr : context.runtime = some r)
    (h : PYM_newJSObject s (some a) context v = .ok res) :
    ∃ R, s.runtimes r = some R ∧ R.finalized = 0 := by
  cases hR : s.runtimes r with
  | none =>
    simp [PYM_newJSObject, PyObject_New, storeRuntime, derefObject, Py_INCREF, derefRuntime,
      update_same, hr, hR, bind, Except.bind] at h
  | some R =>
    by_cases hf : R.finalized = 0
    · exact ⟨R, rfl, hf⟩
    · simp [PYM_newJSObject, PyObject_New, storeRuntime, derefObject, Py_INCREF, derefRuntime,
        update_same, hr, hR, hf, bind, Except.bind] at h

theorem liveOver_cons_same (r a : Addr) (live : List (Addr × Addr)) :
    liveOver r ((a, r) :: live) = liveOver r live + 1 := by
  simp [liveOver]

theorem liveOver_cons_ne (r q a : Addr) (live : List (Addr × Addr)) (h : q ≠ r) :
    liveOver r ((a, q) :: live) = liveOver r live := by
  simp [liveOver, h]

theorem liveOver_erase_same (r a : Addr) (live : List (Addr × Addr))
    (h : (a, r) ∈ live) : liveOver r live = liveOver r (live.erase (a, r)) + 1 := by
  induction live with
  | nil => cases h
  | cons p l ih =>
    by_cases hp : p = (a, r)
    · subst hp
      simp [liveOver]
    · have hm : (a, r) ∈ l := by
        rcases List.mem_cons.1 h with h1 | h1
        · exact absurd h1.symm hp
        · exact h1
      have ih1 := ih hm
      unfold liveOver at ih1 ⊢
      rw [List.erase_cons_tail (by simpa using hp), List.countP_cons, List.countP_cons, ih1]
      omega

theorem liveOver_erase_ne (r q a : Addr) (live : List (Addr × Addr)) (h : q ≠ r) :
    liveOver r (live.erase (a, q)) = liveOver r live := by
  induction live with
  | nil => rfl
  | cons p l ih =>
    by_cases hp : p = (a, q)
    · subst hp
      rw [List.erase_cons_head, liveOver_cons_ne _ _ _ _ h]
    · unfold liveOver at ih ⊢
      rw [List.erase_cons_tail (by simpa using hp), List.countP_cons, List.countP_cons, ih]

/-- The live handles have distinct addresses, so there are at most as many as there
are words in the address space. -/
theorem liveOver_le_words (r : Addr) (live : List (Addr × Addr))
    (h : (live.map Prod.fst).Nodup) : liveOver r live ≤ 2305843009213693952 := by
  have h1 := List.Nodup.length_le_card h
  rw [Fintype.card_fin, List.length_map] at h1
  have h2 : liveOver r live ≤ live.length := List.countP_le_length _
  omega

theorem liveOver_pos (r a : Addr) (live : List (Addr × Addr)) (h : (a, r) ∈ live) :
    0 < liveOver r live := by
  unfold liveOver
  rw [List.countP_pos_iff]
  exact ⟨(a, r), h, by simp⟩

/-- A successful construction on a fresh address keeps the invariant, with the new
handle added to the live ones. -/
theorem inv_construct (s s1 : State) (live : List (Addr × Addr)) (a : Addr)
    (context : PYM_JSContextObject) (v : Option Addr) (r : Addr)
    (hI : Inv s live) (hfresh : s.objects a = none) (hr : context.runtime = some r)
    (hcall : PYM_newJSObject s (some a) context v = .ok (some a, s1)) :
    Inv s1 ((a, r) :: live) := by
  obtain ⟨R, hR, hf⟩ := newJSObject_ok_inv s a context v r _ hr hcall
  rw [newJSObject_eq s a context v r R hr hR hf] at hcall
  injection hcall with hcall
  injection hcall with _ hcall
  subst hcall
  obtain ⟨hnd, hb, hc⟩ := hI
  refine ⟨?_, ?_, ?_⟩
  · rw [List.map_cons, List.nodup_cons]
    refine ⟨?_, hnd⟩
    intro hmem
    obtain ⟨⟨a1, r1⟩, hp, heq⟩ := List.mem_map.1 hmem
    simp only at heq
    subst heq
    obtain ⟨o, _, ho, _⟩ := hb a1 r1 hp
    rw [hfresh] at ho
    cases ho
  · intro a1 r1 hmem
    rcases List.mem_cons.1 hmem with heq | hmem1
    · injection heq with h1 h2
      subst h1 h2
      exact ⟨_, _, update_same _ _ _, rfl, update_same _ _ _, hf,
        fun _ => rootOf_add_same _ _ _⟩
    · obtain ⟨o, R1, ho, hor, hR1, hf1, hroot⟩ := hb a1 r1 hmem1
      have hne : a1 ≠ a := by
        intro h
        subst h
        rw [hfresh] at ho
        cases ho
      by_cases hrr : r1 = r
      · subst hrr
        rw [hR] at hR1
        injection hR1 with hR1
        subst hR1
        refine ⟨o, _, ?_, hor, update_same _ _ _, hf, ?_⟩
        · simpa [update_ne _ _ _ _ hne] using ho
        · intro hv
          simpa [rootOf_add_ne _ _ _ _ hne] using hroot hv
      · refine ⟨o, R1, ?_, hor, ?_, hf1, hroot⟩
        · simpa [update_ne _ _ _ _ hne] using ho
        · simpa [update_ne _ _ _ _ hrr] using hR1
  · intro r1 R1 hR1
    by_cases hrr : r1 = r
    · subst hrr
      simp only [update_same] at hR1
      injection hR1 with hR1
      subst hR1
      obtain ⟨c, hc0, hcmax, hval⟩ := hc r1 R hR
      refine ⟨c, hc0, hcmax, ?_⟩
      rw [liveOver_cons_same]
      show wrap (R.ob_refcnt.val + 1) = _
      rw [hval, wrap_wrap_add]
      push_cast
      rw [add_assoc]
    · simp only [update_ne _ _ _ _ hrr] at hR1
      rw [liveOver_cons_ne _ _ _ _ (fun h => hrr h.symm)]
      exact hc r1 R1 hR1

/-- Teardown of a live handle keeps the invariant, with the handle taken off the live
ones. -/
theorem inv_teardown (s s1 : State) (live : List (Addr × Addr)) (a r : Addr)
    (hI : Inv s live) (hlive : (a, r) ∈ live)
    (hcall : PYM_JSObjectDealloc s a = .ok s1) :
    Inv s1 (live.erase (a, r)) := by
  obtain ⟨hnd, hb, hc⟩ := hI
  obtain ⟨o, R, ho, hor, hR, hf, _⟩ := hb a r hlive
  rw [dealloc_eq s a o r R ho hor hR hf] at hcall
  injection hcall with hcall
  subst hcall
  have hnd2 : live.Nodup := List.Nodup.of_map _ hnd
  obtain ⟨c, hc0, hcmax, hval⟩ := hc r R hR
  have hone := liveOver_erase_same r a live hlive
  have hwords := liveOver_le_words r live hnd
  simp only [wrap, PY_SSIZE_T_MAX] at hval hcmax
  refine ⟨?_, ?_, ?_⟩
  · exact List.Nodup.sublist ((List.erase_sublist (a, r) live).map Prod.fst) hnd
  · intro a1 r1 hmem
    have hmem1 : (a1, r1) ∈ live := List.mem_of_mem_erase hmem
    have hne : (a1, r1) ≠ (a, r) := ((List.Nodup.mem_erase_iff hnd2).1 hmem).1
    have hane : a1 ≠ a := by
      intro h
      subst h
      exact hne (List.inj_on_of_nodup_map hnd hmem1 hlive rfl)
    obtain ⟨o1, R1, ho1, hor1, hR1, hf1, hroot1⟩ := hb a1 r1 hmem1
    by_cases hrr : r1 = r
    · subst hrr
      rw [hR] at hR1
      injection hR1 with hR1
      subst hR1
      have hpos := liveOver_pos r1 a1 _ hmem
      have hz : R.ob_refcnt.val - 1 ≠ 0 := by omega
      refine ⟨o1, _, ?_, hor1, update_same _ _ _, ?_, ?_⟩
      · simpa [update_ne _ _ _ _ hane] using ho1
      · simp [hz]
      · intro hv
        by_cases hov : o.obj = none
        · simpa [hov] using hroot1 hv
        · simpa [hov, rootOf_remove_ne _ _ _ hane] using hroot1 hv
    · refine ⟨o1, R1, ?_, hor1, ?_, hf1, hroot1⟩
      · simpa [update_ne _ _ _ _ hane] using ho1
      · simpa [update_ne _ _ _ _ hrr] using hR1
  · intro r1 R1 hR1
    by_cases hrr : r1 = r
    · subst hrr
      simp only [update_same] at hR1
      injection hR1 with hR1
      subst hR1
      refine ⟨c, hc0, by simpa [PY_SSIZE_T_MAX] using hcmax, ?_⟩
      simp only [Py_ssize_t.ofInt, wrap]
      omega
    · simp only [update_ne _ _ _ _ hrr] at hR1
      rw [liveOver_erase_ne _ _ _ _ (fun h => hrr h.symm)]
      exact hc r1 R1 hR1

/-- Every reachable state satisfies the invariant. -/
theorem reachable_inv (s : State) (live : List (Addr × Addr)) (h : Reachable s live) :
    Inv s live := by
  induction h with
  | init s hobj hcnt =>
    refine ⟨by simp, ?_, ?_⟩
    · intro a r hmem
      cases hmem
    · intro r R hR
      refine ⟨R.ob_refcnt.val, hcnt r R hR, R.ob_refcnt.property.2, ?_⟩
      simp only [liveOver, List.countP_nil, Nat.cast_zero, add_zero]
      exact (wrap_of_range _ R.ob_refcnt.property.1 R.ob_refcnt.property.2).symm
  | construct s s1 live a context v r _ hfresh hr hcall ih =>
    exact inv_construct s s1 live a context v r ih hfresh hr hcall
  | teardown s s1 live a r _ hlive hcall ih =>
    exact inv_teardown s s1 live a r ih hlive hcall

/-! ## C5: the rooting invariant -/

/-- C5. In every state reached from a state with no Object Handle by successful
constructions and by teardowns of live handles, every live handle is allocated, its
`runtime` field points to the Runtime Handle it was constructed over, that Runtime
Handle has not been finalized, and, when the slot of the handle is not empty, the
slot is rooted in the root table of that Runtime Handle under
"Pymonkey-Generated Object". -/
theorem rooting_invariant (s : State) (live : List (Addr × Addr))
    (hreach : Reachable s live) (a r : Addr) (hlive : (a, r) ∈ live) :
    ∃ o R, s.objects a = some o ∧ o.runtime = some r ∧ s.runtimes r = some R ∧
      R.finalized = 0 ∧
      (o.obj ≠ none → rootOf R.rt a = some "Pymonkey-Generated Object") :=
  (reachable_inv s live hreach).2.1 a r hlive

theorem rooting_invariant_witness :
    ∃ s1, Reachable s1 [(10, 1)] ∧
      ∃ o R, s1.objects 10 = some o ∧ o.runtime = some 1 ∧ s1.runtimes 1 = some R ∧
        R.finalized = 0 ∧
        (o.obj ≠ none → rootOf R.rt 10 = some "Pymonkey-Generated Object") :=
  have h1 := newJSObject_eq (oneRuntime 1) 10 ctx1 (some 100) 1
    { ob_refcnt := 1, rt := { gcRoots := [] }, finalized := 0 } rfl rfl rfl
  have h0 : Reachable (oneRuntime 1) [] :=
    Reachable.init _ (fun _ => rfl) (by
      intro r R h
      by_cases hr : r = 1
      · subst hr
        simp [oneRuntime, update] at h
        subst h
        decide
      · simp [oneRuntime, update, hr] at h)
  have hreach := Reachable.construct (oneRuntime 1) _ [] 10 ctx1 (some 100) 1 h0 rfl rfl h1
  ⟨_, hreach, rooting_invariant _ _ hreach 10 1 (List.mem_singleton.2 rfl)⟩

/-! ## C6: the reference count while handles are torn down -/

/-- A successful construction, seen from the Runtime Handle and from the other
handles. -/
theorem newJSObject_frame (s : State) (a : Addr) (context : PYM_JSContextObject)
    (v : Option Addr) (r : Addr) (R : PYM_JSRuntimeObject)
    (hr : context.runtime = some r) (hR : s.runtimes r = some R) (hf : R.finalized = 0)
    (hmax : R.ob_refcnt.val < PY_SSIZE_T_MAX) :
    ∃ s1 R1, PYM_newJSObject s (some a) context v = .ok (some a, s1) ∧
      s1.runtimes r = some R1 ∧ R1.ob_refcnt.val = R.ob_refcnt.val + 1 ∧
      R1.finalized = 0 ∧
      (∃ o, s1.objects a = some o ∧ o.runtime = some r) ∧
      (∀ a1, a1 ≠ a → s1.objects a1 = s.objects a1) :=
  ⟨_, _, newJSObject_eq s a context v r R hr hR hf, update_same _ _ _,
    ofInt_succ_val _ hmax, hf,
    ⟨_, update_same _ _ _, rfl⟩, fun _ h => update_ne _ _ _ _ h⟩

/-- A teardown, seen from the Runtime Handle and from the other handles. -/
theorem dealloc_frame (s : State) (self : Addr) (o : PYM_JSObject) (r : Addr)
    (R : PYM_JSRuntimeObject) (ho : s.objects self = some o) (hr : o.runtime = some r)
    (hR : s.runtimes r = some R) (hf : R.finalized = 0)
    (hmin : PY_SSIZE_T_MIN < R.ob_refcnt.val) :
    ∃ s1 R1, PYM_JSObjectDealloc s self = .ok s1 ∧
      s1.runtimes r = some R1 ∧ R1.ob_refcnt.val = R.ob_refcnt.val - 1 ∧
      (R.ob_refcnt.val - 1 ≠ 0 → R1.finalized = 0) ∧
      (∀ a1, a1 ≠ self → s1.objects a1 = s.objects a1) :=
  ⟨_, _, dealloc_eq s self o r R ho hr hR hf, update_same _ _ _, ofInt_pred_val _ hmin,
    fun hz => by simp [hz], fun _ h => update_ne _ _ _ _ h⟩

/-- Constructing the handles of `hs` over the Runtime Handle at `r` completes, raises
its reference count by their number, and leaves every one of them allocated and
pointing to `r`. -/
theorem constructAll_spec (context : PYM_JSContextObject) (r : Addr)
    (hr : context.runtime = some r) (hs : List (Addr × Option Addr)) :
    ∀ (s : State) (R : PYM_JSRuntimeObject), s.runtimes r = some R → R.finalized = 0 →
      (hs.map Prod.fst).Nodup → R.ob_refcnt.val + hs.length ≤ PY_SSIZE_T_MAX →
      ∃ s1 R1, constructAll s context hs = .ok s1 ∧ s1.runtimes r = some R1 ∧
        R1.ob_refcnt.val = R.ob_refcnt.val + hs.length ∧ R1.finalized = 0 ∧
        (∀ a ∈ hs.map Prod.fst, ∃ o, s1.objects a = some o ∧ o.runtime = some r) ∧
        (∀ a, a ∉ hs.map Prod.fst → s1.objects a = s.objects a) := by
  induction hs with
  | nil =>
    intro s R hR hf _ _
    exact ⟨s, R, rfl, hR, by simp, hf, by simp, fun _ _ => rfl⟩
  | cons p rest ih =>
    obtain ⟨a, v⟩ := p
    intro s R hR hf hnd hmax
    rw [List.map_cons, List.nodup_cons] at hnd
    simp only [List.length_cons, Nat.cast_add, Nat.cast_one] at hmax
    obtain ⟨t, T, h1, hT, hTcnt, hTf, hTo, hTframe⟩ :=
      newJSObject_frame s a context v r R hr hR hf (by omega)
    obtain ⟨s1, R1, hc, hR1, hcnt, hf1, hobjs, hframe⟩ :=
      ih t T hT hTf hnd.2 (by omega)
    refine ⟨s1, R1, ?_, hR1, ?_, hf1, ?_, ?_⟩
    · simp only [constructAll, h1]
      exact hc
    · rw [hcnt, hTcnt]
      simp only [List.length_cons]
      push_cast
      ring
    · intro a1 ha1
      rcases List.mem_cons.1 ha1 with heq | hmem
      · simp only at heq
        subst heq
        rw [hframe a1 hnd.1]
        exact hTo
      · exact hobjs a1 hmem
    · intro a1 ha1
      rw [List.map_cons, List.mem_cons, not_or] at ha1
      rw [hframe a1 ha1.2]
      exact hTframe a1 ha1.1

/-- Tearing down handles `ds` out of the handles `rem` that point to the Runtime
Handle at `r`, whose reference count is `c` plus the number of handles of `rem`,
completes and leaves the count at `c` plus the number of handles not torn down; the
Runtime Handle is not finalized as long as the count is positive. -/
theorem teardownAll_spec (r : Addr) (c : Int) (hc : 0 ≤ c) (ds : List Addr) :
    ∀ (s : State) (rem : List Addr), rem.Nodup → ds.Nodup → (∀ d ∈ ds, d ∈ rem) →
      (∃ R, s.runtimes r = some R ∧ R.ob_refcnt.val = c + rem.length ∧
        (0 < R.ob_refcnt.val → R.finalized = 0)) →
      (∀ a ∈ rem, ∃ o, s.objects a = some o ∧ o.runtime = some r) →
      ∃ s2 R2, teardownAll s ds = .ok s2 ∧ s2.runtimes r = some R2 ∧
        R2.ob_refcnt.val = c + ((rem.length - ds.length : Nat) : Int) ∧
        (0 < R2.ob_refcnt.val → R2.finalized = 0) := by
  induction ds with
  | nil =>
    intro s rem _ _ _ hR _
    obtain ⟨R, hR, hcnt, hfin⟩ := hR
    exact ⟨s, R, rfl, hR, by simpa using hcnt, hfin⟩
  | cons d ds ih =>
    intro s rem hrem hds hsub hR hobjs
    obtain ⟨R, hR, hcnt, hfin⟩ := hR
    rw [List.nodup_cons] at hds
    have hd : d ∈ rem := hsub d (List.mem_cons_self _ _)
    have hlen : 0 < rem.length := List.length_pos_of_mem hd
    have hlen2 : (rem.erase d).length = rem.length - 1 := List.length_erase_of_mem hd
    obtain ⟨o, ho, hor⟩ := hobjs d hd
    have hf : R.finalized = 0 := hfin (by omega)
    obtain ⟨t, T, h1, hT, hTcnt, hTf, hTframe⟩ :=
      dealloc_frame s d o r R ho hor hR hf (by simp only [PY_SSIZE_T_MIN]; omega)
    have hsub2 : ∀ x ∈ ds, x ∈ rem.erase d := by
      intro x hx
      have hxd : x ≠ d := by
        intro h
        subst h
        exact hds.1 hx
      exact (List.mem_erase_of_ne hxd).2 (hsub x (List.mem_cons_of_mem _ hx))
    have hobjs2 : ∀ a ∈ rem.erase d, ∃ o, t.objects a = some o ∧ o.runtime = some r := by
      intro a ha
      have hane : a ≠ d := ((List.Nodup.mem_erase_iff hrem).1 ha).1
      obtain ⟨o1, ho1, hor1⟩ := hobjs a (List.mem_of_mem_erase ha)
      exact ⟨o1, by rw [hTframe a hane]; exact ho1, hor1⟩
    obtain ⟨s2, R2, hc2, hR2, hcnt2, hfin2⟩ :=
      ih t (rem.erase d) (hrem.erase d) hds.2 hsub2
        ⟨T, hT, by omega, fun hpos => hTf (by omega)⟩ hobjs2
    refine ⟨s2, R2, ?_, hR2, ?_, hfin2⟩
    · simp only [teardownAll, h1]
      exact hc2
    · rw [hcnt2]
      simp only [List.length_cons]
      omega

/-- C6. Construct any number of handles over one Runtime Handle whose reference count
is not negative and, with one more per handle, does not exceed `PY_SSIZE_T_MAX`, then
tear down any of them, each once, in any order: every call
completes, and after the teardowns the reference count is its initial value plus the
number of handles not yet torn down, hence at least that number; as long as one
handle has not been torn down the count is positive and the Runtime Handle has not
been finalized. -/
theorem no_premature_finalization (s : State) (context : PYM_JSContextObject) (r : Addr)
    (R : PYM_JSRuntimeObject) (hs : List (Addr × Option Addr)) (ds : List Addr)
    (hr : context.runtime = some r) (hR : s.runtimes r = some R) (hf : R.finalized = 0)
    (hc : 0 ≤ R.ob_refcnt.val) (hmax : R.ob_refcnt.val + hs.length ≤ PY_SSIZE_T_MAX)
    (hnd : (hs.map Prod.fst).Nodup) (hds : ds.Nodup)
    (hsub : ∀ d ∈ ds, d ∈ hs.map Prod.fst) :
    ∃ s1 s2 R2,
      constructAll s context hs = .ok s1 ∧
      teardownAll s1 ds = .ok s2 ∧
      s2.runtimes r = some R2 ∧
      R2.ob_refcnt.val = R.ob_refcnt.val + ((hs.length - ds.length : Nat) : Int) ∧
      ((hs.length - ds.length : Nat) : Int) ≤ R2.ob_refcnt.val ∧
      (ds.length < hs.length → 0 < R2.ob_refcnt.val ∧ R2.finalized = 0) := by
  obtain ⟨s1, R1, h1, hR1, hcnt1, hf1, hobjs, _⟩ :=
    constructAll_spec context r hr hs s R hR hf hnd hmax
  obtain ⟨s2, R2, h2, hR2, hcnt2, hfin2⟩ :=
    teardownAll_spec r R.ob_refcnt.val hc ds s1 (hs.map Prod.fst) hnd hds hsub
      ⟨R1, hR1, by simpa using hcnt1, fun _ => hf1⟩ hobjs
  rw [List.length_map] at hcnt2
  refine ⟨s1, s2, R2, h1, h2, hR2, hcnt2, by omega, ?_⟩
  intro hlt
  have hpos : 0 < R2.ob_refcnt.val := by omega
  exact ⟨hpos, hfin2 hpos⟩

theorem no_premature_finalization_witness :
    ctx1.runtime = some 1 ∧ ([20] : List Addr).Nodup ∧
    (0 : Py_ssize_t).val + (2 : Nat) ≤ PY_SSIZE_T_MAX ∧
    ∃ s1 s2 R2,
      constructAll (oneRuntime 0) ctx1 [(10, some 100), (20, some 200)] = .ok s1 ∧
      teardownAll s1 [20] = .ok s2 ∧
      s2.runtimes 1 = some R2 ∧
      R2.ob_refcnt.val = (0 : Py_ssize_t).val + ((2 - 1 : Nat) : Int) ∧
      ((2 - 1 : Nat) : Int) ≤ R2.ob_refcnt.val ∧
      (1 < 2 → 0 < R2.ob_refcnt.val ∧ R2.finalized = 0) :=
  ⟨rfl, by decide, by decide,
    no_premature_finalization (oneRuntime 0) ctx1 1
      { ob_refcnt := 0, rt := { gcRoots := [] }, finalized := 0 }
      [(10, some 100), (20, some 200)] [20] rfl rfl rfl (by decide) (by decide) (by decide)
      (by decide) (by simp)⟩

/-! ## C9: the end-to-end scenario -/

/-- C9. From the state with one Runtime Handle, at address 1, of reference count 0
and with an empty root table, and no handle: constructing handle `a` over value `v`
gives count 1 and the root table holding the slot of `a`; constructing handle `b`
over value `w` gives count 2 and the root table holding both slots; tearing down `a`
gives count 1 and the root table holding the slot of `b` only, with no finalization
so far; tearing down `b` gives count 0 and an empty root table, and the Runtime
Handle has been finalized once, the finalization being logged exactly once in the
whole run. -/
theorem end_to_end (a b v w : Addr) (hab : a ≠ b) :
    ∃ s1 s2 s3 s4,
      PYM_newJSObject (oneRuntime 0) (some a) ctx1 (some v) = .ok (some a, s1) ∧
      s1.runtimes 1 = some
        { ob_refcnt := 1, rt := { gcRoots := [(a, rootName)] }, finalized := 0 } ∧
      s1.objects a = some { ob_refcnt := 1, runtime := some 1, obj := some v } ∧
      PYM_newJSObject s1 (some b) ctx1 (some w) = .ok (some b, s2) ∧
      s2.runtimes 1 = some
        { ob_refcnt := 2, rt := { gcRoots := [(b, rootName), (a, rootName)] },
          finalized := 0 } ∧
      s2.objects a = some { ob_refcnt := 1, runtime := some 1, obj := some v } ∧
      s2.objects b = some { ob_refcnt := 1, runtime := some 1, obj := some w } ∧
      PYM_JSObjectDealloc s2 a = .ok s3 ∧
      s3.runtimes 1 = some
        { ob_refcnt := 1, rt := { gcRoots := [(b, rootName)] }, finalized := 0 } ∧
      s3.log.count (Effect.finalize 1) = 0 ∧
      PYM_JSObjectDealloc s3 b = .ok s4 ∧
      s4.runtimes 1 = some { ob_refcnt := 0, rt := { gcRoots := [] }, finalized := 1 } ∧
      s4.log.count (Effect.finalize 1) = 1 := by
  have hba : b ≠ a := fun h => hab h.symm
  have e01 : Py_ssize_t.ofInt ((0 : Py_ssize_t).val + 1) = 1 := by decide
  have e12 : Py_ssize_t.ofInt ((1 : Py_ssize_t).val + 1) = 2 := by decide
  have e21 : Py_ssize_t.ofInt ((2 : Py_ssize_t).val - 1) = 1 := by decide
  have e10 : Py_ssize_t.ofInt ((1 : Py_ssize_t).val - 1) = 0 := by decide
  have z2 : ¬ (2 : Py_ssize_t).val - 1 = 0 := by decide
  have z1 : (1 : Py_ssize_t).val - 1 = 0 := by decide
  have e0 : Py_ssize_t.ofInt 0 = 0 := rfl
  refine ⟨_, ?s2, ?s3, ?s4,
    newJSObject_eq (oneRuntime 0) a ctx1 (some v) 1
      { ob_refcnt := 0, rt := { gcRoots := [] }, finalized := 0 } rfl rfl rfl,
    ?r1, ?o1, ?c2, ?r2, ?o2a, ?o2b, ?c3, ?r3, ?l3, ?c4, ?r4, ?l4⟩
  case c2 =>
    refine newJSObject_eq _ b ctx1 (some w) 1
      { ob_refcnt := 1, rt := JS_AddNamedRootRT { gcRoots := [] } a rootName,
        finalized := 0 } ?_ ?_ ?_ <;> rfl
  case c3 =>
    refine dealloc_eq _ a { ob_refcnt := 1, runtime := some 1, obj := some v } 1
      { ob_refcnt := 2,
        rt := JS_AddNamedRootRT (JS_AddNamedRootRT { gcRoots := [] } a rootName) b rootName,
        finalized := 0 } ?_ ?_ ?_ ?_
    · simp [update, hab]
    · rfl
    · rfl
    · rfl
  case c4 =>
    refine dealloc_eq _ b { ob_refcnt := 1, runtime := some 1, obj := some w } 1
      { ob_refcnt := 1,
        rt := JS_RemoveRootRT
          (JS_AddNamedRootRT (JS_AddNamedRootRT { gcRoots := [] } a rootName) b rootName) a,
        finalized := 0 } ?_ ?_ ?_ ?_
    · simp [update, hba]
    · rfl
    · simp [update, e21, z2]
    · rfl
  case r1 => simp [update, JS_AddNamedRootRT, e01]
  case o1 => simp [update]
  case r2 => simp [update, JS_AddNamedRootRT, hab, e12]
  case o2a => simp [update, hab]
  case o2b => simp [update]
  case r3 => simp [update, JS_AddNamedRootRT, JS_RemoveRootRT, hab, hba, e21, z2]
  case l3 => simp [oneRuntime, z2]
  case r4 => simp [update, JS_AddNamedRootRT, JS_RemoveRootRT, hab, hba, e10, z1, e0]
  case l4 => simp [oneRuntime, z2, z1]

theorem end_to_end_witness :
    ∃ s1 s2 s3 s4,
      PYM_newJSObject (oneRuntime 0) (some 10) ctx1 (some 100) = .ok (some 10, s1) ∧
      s1.runtimes 1 = some
        { ob_refcnt := 1, rt := { gcRoots := [(10, rootName)] }, finalized := 0 } ∧
      s1.objects 10 = some { ob_refcnt := 1, runtime := some 1, obj := some 100 } ∧
      PYM_newJSObject s1 (some 20) ctx1 (some 200) = .ok (some 20, s2) ∧
      s2.runtimes 1 = some
        { ob_refcnt := 2, rt := { gcRoots := [(20, rootName), (10, rootName)] },
          finalized := 0 } ∧
      s2.objects 10 = some { ob_refcnt := 1, runtime := some 1, obj := some 100 } ∧
      s2.objects 20 = some { ob_refcnt := 1, runtime := some 1, obj := some 200 } ∧
      PYM_JSObjectDealloc s2 10 = .ok s3 ∧
      s3.runtimes 1 = some
        { ob_refcnt := 1, rt := { gcRoots := [(20, rootName)] }, finalized := 0 } ∧
      s3.log.count (Effect.finalize 1) = 0 ∧
      PYM_JSObjectDealloc s3 20 = .ok s4 ∧
      s4.runtimes 1 = some { ob_refcnt := 0, rt := { gcRoots := [] }, finalized := 1 } ∧
      s4.log.count (Effect.finalize 1) = 1 :=
  end_to_end 10 20 100 200 (by decide)

/-! ## C10: handles over the same value -/

/-- A successful construction: the Runtime Handle and the handles after the call. -/
theorem newJSObject_post (s : State) (a : Addr) (context : PYM_JSContextObject)
    (v : Option Addr) (r : Addr) (R : PYM_JSRuntimeObject)
    (hr : context.runtime = some r) (hR : s.runtimes r = some R) (hf : R.finalized = 0)
    (hmax : R.ob_refcnt.val < PY_SSIZE_T_MAX) :
    ∃ s1 R1, PYM_newJSObject s (some a) context v = .ok (some a, s1) ∧
      s1.runtimes r = some R1 ∧ R1.ob_refcnt.val = R.ob_refcnt.val + 1 ∧
      R1.finalized = 0 ∧
      R1.rt = JS_AddNamedRootRT R.rt a rootName ∧
      s1.objects a = some { ob_refcnt := 1, runtime := some r, obj := v } ∧
      (∀ a1, a1 ≠ a → s1.objects a1 = s.objects a1) :=
  ⟨_, _, newJSObject_eq s a context v r R hr hR hf, update_same _ _ _,
    ofInt_succ_val _ hmax, hf, rfl, update_same _ _ _, fun _ h => update_ne _ _ _ _ h⟩

/-- A teardown of a handle with a non-empty slot: the Runtime Handle and the other
handles after the call. -/
theorem dealloc_post (s : State) (self : Addr) (o : PYM_JSObject) (r : Addr)
    (R : PYM_JSRuntimeObject) (ho : s.objects self = some o) (hr : o.runtime = some r)
    (hR : s.runtimes r = some R) (hf : R.finalized = 0) (hv : o.obj ≠ none)
    (hmin : PY_SSIZE_T_MIN < R.ob_refcnt.val) :
    ∃ s1 R1, PYM_JSObjectDealloc s self = .ok s1 ∧
      s1.runtimes r = some R1 ∧ R1.ob_refcnt.val = R.ob_refcnt.val - 1 ∧
      R1.rt = JS_RemoveRootRT R.rt self ∧
      (∀ a1, a1 ≠ self → s1.objects a1 = s.objects a1) :=
  ⟨_, _, dealloc_eq s self o r R ho hr hR hf, update_same _ _ _, ofInt_pred_val _ hmin,
    by simp [hv], fun _ h => update_ne _ _ _ _ h⟩

/-- C10. Two successful constructions over the same Runtime Handle, whose reference
count with two more does not exceed `PY_SSIZE_T_MAX`, and the same non-empty value
`x`, the second on an address that is not allocated after the first:
the two handles are distinct, both hold `x` and point to the Runtime Handle, each
has its own slot rooted, and the reference count is two higher than before. Tearing
down either of them completes, removes the root of its own slot, leaves every other
slot rooted as it was, that of the other handle included, leaves the record of the
other handle as it was, and lowers the reference count by one. -/
theorem handles_independent (s s1 : State) (context : PYM_JSContextObject) (x : Addr)
    (r : Addr) (R : PYM_JSRuntimeObject) (a1 a2 : Addr)
    (hr : context.runtime = some r) (hR : s.runtimes r = some R) (hf : R.finalized = 0)
    (hmax : R.ob_refcnt.val + 2 ≤ PY_SSIZE_T_MAX)
    (h1 : PYM_newJSObject s (some a1) context (some x) = .ok (some a1, s1))
    (hfresh : s1.objects a2 = none) :
    a1 ≠ a2 ∧
    ∃ s2 R2,
      PYM_newJSObject s1 (some a2) context (some x) = .ok (some a2, s2) ∧
      s2.runtimes r = some R2 ∧
      R2.ob_refcnt.val = R.ob_refcnt.val + 2 ∧
      s2.objects a1 = some { ob_refcnt := 1, runtime := some r, obj := some x } ∧
      s2.objects a2 = some { ob_refcnt := 1, runtime := some r, obj := some x } ∧
      rootOf R2.rt a1 = some "Pymonkey-Generated Object" ∧
      rootOf R2.rt a2 = some "Pymonkey-Generated Object" ∧
      (∃ t T, PYM_JSObjectDealloc s2 a1 = .ok t ∧ t.runtimes r = some T ∧
        T.ob_refcnt.val = R.ob_refcnt.val + 1 ∧
        rootOf T.rt a1 = none ∧
        (∀ k, k ≠ a1 → rootOf T.rt k = rootOf R2.rt k) ∧
        rootOf T.rt a2 = some "Pymonkey-Generated Object" ∧
        t.objects a2 = some { ob_refcnt := 1, runtime := some r, obj := some x }) ∧
      (∃ t T, PYM_JSObjectDealloc s2 a2 = .ok t ∧ t.runtimes r = some T ∧
        T.ob_refcnt.val = R.ob_refcnt.val + 1 ∧
        rootOf T.rt a2 = none ∧
        (∀ k, k ≠ a2 → rootOf T.rt k = rootOf R2.rt k) ∧
        rootOf T.rt a1 = some "Pymonkey-Generated Object" ∧
        t.objects a1 = some { ob_refcnt := 1, runtime := some r, obj := some x }) := by
  have hlo := R.ob_refcnt.property.1
  obtain ⟨u, R1, hu, hR1, hcnt1, hf1, hrt1, ho1, _⟩ :=
    newJSObject_post s a1 context (some x) r R hr hR hf (by omega)
  rw [hu] at h1
  injection h1 with h1
  injection h1 with _ h1
  subst h1
  have hne : a1 ≠ a2 := by
    intro h
    subst h
    rw [ho1] at hfresh
    cases hfresh
  have hne2 : a2 ≠ a1 := fun h => hne h.symm
  obtain ⟨s2, R2, h2, hR2, hcnt2, hf2, hrt2, ho2, hframe2⟩ :=
    newJSObject_post u a2 context (some x) r R1 hr hR1 hf1 (by omega)
  have ho21 : s2.objects a1 = some { ob_refcnt := 1, runtime := some r, obj := some x } := by
    rw [hframe2 a1 hne]
    exact ho1
  have hroot1 : rootOf R2.rt a1 = some rootName := by
    rw [hrt2, rootOf_add_ne _ _ _ _ hne, hrt1]
    exact rootOf_add_same _ _ _
  have hroot2 : rootOf R2.rt a2 = some rootName := by
    rw [hrt2]
    exact rootOf_add_same _ _ _
  refine ⟨hne, s2, R2, h2, hR2, by omega, ho21, ho2, hroot1, hroot2, ?_, ?_⟩
  · obtain ⟨t, T, ht, hT, hTcnt, hTrt, hTframe⟩ :=
      dealloc_post s2 a1 _ r R2 ho21 rfl hR2 hf2 (by simp) (by omega)
    refine ⟨t, T, ht, hT, by omega, ?_, ?_, ?_, ?_⟩
    · rw [hTrt]
      exact rootOf_remove_same _ _
    · intro k hk
      rw [hTrt]
      exact rootOf_remove_ne _ _ _ hk
    · rw [hTrt, rootOf_remove_ne _ _ _ hne2]
      exact hroot2
    · rw [hTframe a2 hne2]
      exact ho2
  · obtain ⟨t, T, ht, hT, hTcnt, hTrt, hTframe⟩ :=
      dealloc_post s2 a2 _ r R2 ho2 rfl hR2 hf2 (by simp) (by omega)
    refine ⟨t, T, ht, hT, by omega, ?_, ?_, ?_, ?_⟩
    · rw [hTrt]
      exact rootOf_remove_same _ _
    · intro k hk
      rw [hTrt]
      exact rootOf_remove_ne _ _ _ hk
    · rw [hTrt, rootOf_remove_ne _ _ _ hne]
      exact hroot1
    · rw [hTframe a1 hne]
      exact ho21

theorem handles_independent_witness :
    (1 : Py_ssize_t).val + 2 ≤ PY_SSIZE_T_MAX ∧
    ∃ s1,
      PYM_newJSObject (oneRuntime 1) (some 10) ctx1 (some 100) = .ok (some 10, s1) ∧
      s1.objects 20 = none ∧
      (10 : Addr) ≠ 20 ∧
      ∃ s2 R2,
        PYM_newJSObject s1 (some 20) ctx1 (some 100) = .ok (some 20, s2) ∧
        s2.runtimes 1 = some R2 ∧
        R2.ob_refcnt.val = (1 : Py_ssize_t).val + 2 ∧
        s2.objects 10 = some { ob_refcnt := 1, runtime := some 1, obj := some 100 } ∧
        s2.objects 20 = some { ob_refcnt := 1, runtime := some 1, obj := some 100 } ∧
        rootOf R2.rt 10 = some "Pymonkey-Generated Object" ∧
        rootOf R2.rt 20 = some "Pymonkey-Generated Object" ∧
        (∃ t T, PYM_JSObjectDealloc s2 10 = .ok t ∧ t.runtimes 1 = some T ∧
          T.ob_refcnt.val = (1 : Py_ssize_t).val + 1 ∧
          rootOf T.rt 10 = none ∧
          (∀ k, k ≠ 10 → rootOf T.rt k = rootOf R2.rt k) ∧
          rootOf T.rt 20 = some "Pymonkey-Generated Object" ∧
          t.objects 20 = some { ob_refcnt := 1, runtime := some 1, obj := some 100 }) ∧
        (∃ t T, PYM_JSObjectDealloc s2 20 = .ok t ∧ t.runtimes 1 = some T ∧
          T.ob_refcnt.val = (1 : Py_ssize_t).val + 1 ∧
          rootOf T.rt 20 = none ∧
          (∀ k, k ≠ 20 → rootOf T.rt k = rootOf R2.rt k) ∧
          rootOf T.rt 10 = some "Pymonkey-Generated Object" ∧
          t.objects 10 = some { ob_refcnt := 1, runtime := some 1, obj := some 100 }) :=
  have h1 := newJSObject_eq (oneRuntime 1) 10 ctx1 (some 100) 1
    { ob_refcnt := 1, rt := { gcRoots := [] }, finalized := 0 } rfl rfl rfl
  ⟨by decide, _, h1, rfl,
    handles_independent (oneRuntime 1) _ ctx1 100 1
      { ob_refcnt := 1, rt := { gcRoots := [] }, finalized := 0 } 10 20 rfl rfl rfl
      (by decide) h1 rfl⟩

end Pydermonkey
